import Mathlib

/-!
Shallow embedding of the mi-blockchain core (src/core/transaction.py,
src/core/block.py, src/core/blockchain.py, src/network/node.py).

Amounts and timestamps are Python floats in the source; they are modelled as
rationals.  The cryptographic primitives are modelled as parameters:
`Htx : SignableData → String` stands for the hex of the double SHA-256 of the
deterministic JSON serialization of a transaction's signable view,
`Hb : HeaderData → String` for the block-header hash, and
`sigOk : String → String → Option String → Bool` for the ECDSA verification
call (recipient PEM key, prehashed digest, signature); the Python code treats
all three as black boxes, so every theorem quantifies over them.
-/

namespace MiBlockchain

abbrev Amount := ℚ

/-- TxOutput from src/core/transaction.py: amount plus opaque PEM recipient. -/
structure TxOutput where
  amount : Amount
  recipient_public_key : String
deriving DecidableEq, Repr

/-- TxInput from src/core/transaction.py. -/
structure TxInput where
  tx_id : String
  output_index : Nat
  signature : Option String
deriving DecidableEq, Repr

/-- One entry of the `inputs` list of `Transaction._signable_data`. -/
structure SignableInput where
  tx_id : String
  output_index : Nat
deriving DecidableEq, Repr

/-- One entry of the `outputs` list of `Transaction._signable_data`. -/
structure SignableOutput where
  amount : Amount
  recipient : String
deriving DecidableEq, Repr

/-- The dict built by `Transaction._signable_data`: inputs without signatures,
outputs, and the timestamp. -/
structure SignableData where
  inputs : List SignableInput
  outputs : List SignableOutput
  timestamp : ℚ
deriving DecidableEq, Repr

structure Transaction where
  inputs : List TxInput
  outputs : List TxOutput
  timestamp : ℚ
  id : String
deriving DecidableEq, Repr

/-- Source `Transaction._signable_data`: drops the signatures from the inputs. -/
def signable_data (inputs : List TxInput) (outputs : List TxOutput)
    (timestamp : ℚ) : SignableData :=
  { inputs := inputs.map (fun i => ⟨i.tx_id, i.output_index⟩)
    outputs := outputs.map (fun o => ⟨o.amount, o.recipient_public_key⟩)
    timestamp := timestamp }

def Transaction.signableData (tx : Transaction) : SignableData :=
  signable_data tx.inputs tx.outputs tx.timestamp

/-- Source `Transaction.calculate_id`: double SHA-256 (the parameter `Htx`) of the
deterministic serialization of the signable view. -/
def calculate_id (Htx : SignableData → String) (inputs : List TxInput)
    (outputs : List TxOutput) (timestamp : ℚ) : String :=
  Htx (signable_data inputs outputs timestamp)

/-- The `Transaction.__init__` constructor: stores the fields and computes the
id with `calculate_id`.  A `None` timestamp (and, via Python truthiness,
a zero timestamp) is replaced by the current time. -/
def Transaction.mk' (Htx : SignableData → String) (inputs : List TxInput)
    (outputs : List TxOutput) (timestamp : Option ℚ) (now : ℚ) : Transaction :=
  let ts := match timestamp with
    | none => now
    | some t => if t = 0 then now else t
  { inputs := inputs, outputs := outputs, timestamp := ts
    id := calculate_id Htx inputs outputs ts }

/-- Source `Transaction.is_coinbase`: no inputs. -/
def Transaction.is_coinbase (tx : Transaction) : Bool :=
  tx.inputs.isEmpty

/-- Source `Transaction.hash_for_signature`: same digest as `calculate_id`. -/
def Transaction.hash_for_signature (Htx : SignableData → String)
    (tx : Transaction) : String :=
  Htx tx.signableData

abbrev UtxoKey := String × Nat
abbrev UtxoSet := List (UtxoKey × TxOutput)

def utxoLookup (u : UtxoSet) (k : UtxoKey) : Option TxOutput :=
  match u with
  | [] => none
  | (k2, v) :: rest => if k = k2 then some v else utxoLookup rest k

def utxoErase (u : UtxoSet) (k : UtxoKey) : UtxoSet :=
  u.filter (fun p => decide (p.1 ≠ k))

def utxoInsert (u : UtxoSet) (k : UtxoKey) (v : TxOutput) : UtxoSet :=
  (k, v) :: utxoErase u k

/-- The input-checking loop of `Transaction.verify`: looks each input up in
the UTXO view, rejects missing keys, negative resolved amounts and bad
signatures, and accumulates the input sum. -/
def verifyInputs (sigOk : String → String → Option String → Bool)
    (digest : String) (utxo : UtxoSet) : List TxInput → Except String Amount
  | [] => Except.ok 0
  | inp :: rest =>
    match utxoLookup utxo (inp.tx_id, inp.output_index) with
    | none => Except.error "UTXO inexistente"
    | some o =>
      if o.amount < 0 then Except.error "UTXO con monto negativo"
      else if sigOk o.recipient_public_key digest inp.signature then
        match verifyInputs sigOk digest utxo rest with
        | Except.error e => Except.error e
        | Except.ok s => Except.ok (o.amount + s)
      else Except.error "InvalidSignature"

/-- Source `Transaction.verify`: coinbase short-circuits to `(True, 0)`; otherwise
checks outputs, inputs and value conservation and returns the fee. -/
def Transaction.verify (sigOk : String → String → Option String → Bool)
    (Htx : SignableData → String) (tx : Transaction) (utxo : UtxoSet) :
    Except String (Bool × Amount) :=
  if tx.is_coinbase then Except.ok (true, 0)
  else
    let digest := tx.hash_for_signature Htx
    let output_sum := (tx.outputs.map TxOutput.amount).sum
    if output_sum < 0 then Except.error "Output negativo"
    else
      match verifyInputs sigOk digest utxo tx.inputs with
      | Except.error e => Except.error e
      | Except.ok input_sum =>
        if input_sum < output_sum then
          Except.error "Creacion de dinero: inputs menores que outputs"
        else Except.ok (true, input_sum - output_sum)

/-- Sum of the amounts that a list of inputs resolves to in a UTXO view
(an unresolved input counts 0; the claims below always assume resolution). -/
def inputSum (utxo : UtxoSet) (inputs : List TxInput) : Amount :=
  (inputs.map (fun i =>
    match utxoLookup utxo (i.tx_id, i.output_index) with
    | some o => o.amount
    | none => 0)).sum

/-- Source `Blockchain.apply_transaction`: delete each input's key, then insert each
output under `(tx.id, index)`. -/
def apply_transaction (tx : Transaction) (utxo : UtxoSet) : UtxoSet :=
  let afterInputs :=
    tx.inputs.foldl (fun u i => utxoErase u (i.tx_id, i.output_index)) utxo
  tx.outputs.enum.foldl (fun u p => utxoInsert u (tx.id, p.1) p.2) afterInputs

structure Block where
  index : ℤ
  timestamp : ℚ
  transactions : List Transaction
  previous_hash : String
  difficulty : ℤ
  nonce : ℤ
  hash : String
deriving DecidableEq, Repr

/-- The dict built by `Block._header_data`: every field except `hash`. -/
structure HeaderData where
  index : ℤ
  timestamp : ℚ
  transactions : List Transaction
  previous_hash : String
  difficulty : ℤ
  nonce : ℤ
deriving DecidableEq, Repr

def Block.headerData (b : Block) : HeaderData :=
  ⟨b.index, b.timestamp, b.transactions, b.previous_hash, b.difficulty, b.nonce⟩

/-- Source `Block.calculate_hash`: double SHA-256 (the parameter `Hb`) of the
serialized header view. -/
def Block.calculate_hash (Hb : HeaderData → String) (b : Block) : String :=
  Hb b.headerData

/-- The string `"0" * difficulty` as used in the proof-of-work checks: a negative
difficulty yields the empty string, as in Python. -/
def powTarget (difficulty : ℤ) : String :=
  String.mk (List.replicate difficulty.toNat '0')

def charsStartWith : List Char → List Char → Bool
  | [], _ => true
  | _ :: _, [] => false
  | p :: ps, c :: cs => if p = c then charsStartWith ps cs else false

/-- Python's `str.startswith`, on the character lists of the two strings. -/
def strStartsWith (s pre : String) : Bool :=
  charsStartWith pre.data s.data

def defaultBlock : Block :=
  { index := 0, timestamp := 0, transactions := [], previous_hash := "0"
    difficulty := 0, nonce := 0, hash := "" }

-- ── Monetary policy and difficulty constants (src/core/blockchain.py) ──

def INITIAL_REWARD : ℚ := 50
def HALVING_INTERVAL : Nat := 210
def DIFFICULTY_INTERVAL : Nat := 10
def TARGET_BLOCK_TIME : ℚ := 30

/-- Source `get_mining_reward`: halves the initial reward every 210 blocks. -/
def get_mining_reward (block_index : Nat) : ℚ :=
  max 0 (INITIAL_REWARD / 2 ^ (block_index / HALVING_INTERVAL))

/-- Floor of a rational as an integer (Python float→int flooring helper for
`round`). -/
def ratFloor (q : ℚ) : ℤ :=
  Int.fdiv q.num q.den

/-- Python's `round` to the nearest integer, ties to even. -/
def pyRound (q : ℚ) : ℤ :=
  let f := ratFloor q
  let frac := q - f
  if frac < 1 / 2 then f
  else if 1 / 2 < frac then f + 1
  else if f % 2 = 0 then f else f + 1

/-- Clamping of a value to the interval `[lo, hi]`, as the specification
words the difficulty retarget. -/
def clampQ (lo hi x : ℚ) : ℚ := max lo (min hi x)

/-- Source `Blockchain.calculate_next_difficulty`: retarget only when the chain
length is at least `DIFFICULTY_INTERVAL` and a multiple of it; clamp the real
elapsed time of the last interval to a factor 2 and round the rescaled
difficulty, with minimum 1. -/
def calculate_next_difficulty (chain : List Block) (difficulty : ℤ) : ℤ :=
  let chain_len := chain.length
  if chain_len < DIFFICULTY_INTERVAL ∨ chain_len % DIFFICULTY_INTERVAL ≠ 0 then
    difficulty
  else
    let bloque_inicio := chain.getD (chain_len - DIFFICULTY_INTERVAL) defaultBlock
    let bloque_fin := (chain.getLastD defaultBlock)
    let tiempo_real := bloque_fin.timestamp - bloque_inicio.timestamp
    let tiempo_obj : ℚ := TARGET_BLOCK_TIME * (DIFFICULTY_INTERVAL : ℚ)
    let tiempo_real := if tiempo_real < tiempo_obj / 2 then tiempo_obj / 2 else tiempo_real
    let tiempo_real := if tiempo_real > tiempo_obj * 2 then tiempo_obj * 2 else tiempo_real
    max 1 (pyRound ((difficulty : ℚ) * tiempo_obj / tiempo_real))

-- ── Blockchain state and block validation (src/core/blockchain.py) ──

structure BlockchainState where
  chain : List Block
  utxo_set : UtxoSet
  tx_index : List (String × ℤ)
  difficulty : ℤ
deriving DecidableEq, Repr

/-- First-output amount of the coinbase as read by `validate_block` and
`validate_chain`: `coinbase.outputs[0].amount if coinbase.outputs else 0`. -/
def cbFirstAmount (tx : Transaction) : Amount :=
  match tx.outputs with
  | [] => 0
  | o :: _ => o.amount

/-- The `for tx in transactions[1:]` loop of `validate_block`: verify each
transaction against the snapshot, apply it, and accumulate the fees. -/
def vbTxLoop (sigOk : String → String → Option String → Bool)
    (Htx : SignableData → String) :
    List Transaction → UtxoSet → Amount → Option (Amount × UtxoSet)
  | [], utxo, fees => some (fees, utxo)
  | tx :: rest, utxo, fees =>
    match tx.verify sigOk Htx utxo with
    | Except.error _ => none
    | Except.ok (valid, fee) =>
      if valid then vbTxLoop sigOk Htx rest (apply_transaction tx utxo) (fees + fee)
      else none

/-- Source `Blockchain.validate_block`: checks linkage against the tip, hash
integrity, proof of work at the genesis difficulty, difficulty floor,
timestamp drift, first-transaction coinbase, per-transaction validity over a
snapshot, and the coinbase amount. -/
def validate_block (Hb : HeaderData → String)
    (sigOk : String → String → Option String → Bool)
    (Htx : SignableData → String) (now : ℚ)
    (bc : BlockchainState) (b : Block) : Bool :=
  match bc.chain.getLast? with
  | none => false
  | some latest =>
    if b.previous_hash ≠ latest.hash then false
    else if b.index ≠ latest.index + 1 then false
    else if b.calculate_hash Hb ≠ b.hash then false
    else
      let genesis_difficulty := (bc.chain.headD defaultBlock).difficulty
      if ¬ strStartsWith b.hash (powTarget genesis_difficulty) then false
      else if b.difficulty < genesis_difficulty then false
      else if b.timestamp > now + 7200 then false
      else
        match b.transactions with
        | [] => false
        | coinbase :: rest =>
          if ¬ coinbase.is_coinbase then false
          else
            match vbTxLoop sigOk Htx rest bc.utxo_set 0 with
            | none => false
            | some (fees_total, _) =>
              decide (cbFirstAmount coinbase =
                get_mining_reward bc.chain.length + fees_total)

def txIndexInsert (ti : List (String × ℤ)) (k : String) (v : ℤ) :
    List (String × ℤ) :=
  (k, v) :: ti.filter (fun p => decide (p.1 ≠ k))

/-- Source `Blockchain.add_block`: validate, then apply every transaction to the
live UTXO set, append the block, index its transactions and retarget the
difficulty.  Returns the accept flag and the new state. -/
def add_block (Hb : HeaderData → String)
    (sigOk : String → String → Option String → Bool)
    (Htx : SignableData → String) (now : ℚ)
    (bc : BlockchainState) (b : Block) : Bool × BlockchainState :=
  if ¬ validate_block Hb sigOk Htx now bc b then (false, bc)
  else
    let utxo := b.transactions.foldl (fun u tx => apply_transaction tx u) bc.utxo_set
    let chain := bc.chain ++ [b]
    let tx_index := b.transactions.foldl (fun ti tx => txIndexInsert ti tx.id b.index) bc.tx_index
    let difficulty := calculate_next_difficulty chain bc.difficulty
    (true, { chain := chain, utxo_set := utxo, tx_index := tx_index,
             difficulty := difficulty })

-- ── Chain validation (Blockchain.validate_chain) ──

/-- Loop state of the transaction loop inside `validate_chain`. -/
structure VcState where
  fees : Amount
  coinbase : Option Transaction
  seen : Bool
  utxo : UtxoSet

/-- The `for tx_index, tx in enumerate(block.transactions)` loop of
`validate_chain` for the block at position `i`: genesis coinbases are applied
directly, a non-genesis coinbase must sit at position 0 and be unique, other
transactions must verify and are applied. -/
def vcTxLoop (sigOk : String → String → Option String → Bool)
    (Htx : SignableData → String) (i : Nat) :
    Nat → List Transaction → VcState → Option VcState
  | _, [], s => some s
  | tix, tx :: rest, s =>
    if tx.is_coinbase then
      if i = 0 then
        vcTxLoop sigOk Htx i (tix + 1) rest
          { s with utxo := apply_transaction tx s.utxo }
      else if tix ≠ 0 then none
      else if s.seen then none
      else vcTxLoop sigOk Htx i (tix + 1) rest
        { s with seen := true, coinbase := some tx }
    else
      match tx.verify sigOk Htx s.utxo with
      | Except.error _ => none
      | Except.ok (_, fee) =>
        vcTxLoop sigOk Htx i (tix + 1) rest
          { s with fees := s.fees + fee, utxo := apply_transaction tx s.utxo }

/-- Transaction validation of one block inside `validate_chain`: run the
transaction loop, then check the coinbase amount against
`reward(i) + fees` (for `i > 0`) and apply the deferred coinbase. -/
def vcBlockTxs (sigOk : String → String → Option String → Bool)
    (Htx : SignableData → String) (i : Nat) (txs : List Transaction)
    (utxo : UtxoSet) : Option UtxoSet :=
  match vcTxLoop sigOk Htx i 0 txs ⟨0, none, false, utxo⟩ with
  | none => none
  | some s =>
    match s.coinbase with
    | none => some s.utxo
    | some cb =>
      if 0 < i then
        if cbFirstAmount cb ≠ get_mining_reward i + s.fees then none
        else some (apply_transaction cb s.utxo)
      else some (apply_transaction cb s.utxo)

/-- The `i > 0` iterations of the `validate_chain` loop: pairwise previous
hash, proof of work at the block's own difficulty, non-decreasing timestamp,
drift bound, then the transaction checks. -/
def vcChainLoop (sigOk : String → String → Option String → Bool)
    (Htx : SignableData → String) (now : ℚ) :
    Nat → Block → UtxoSet → List Block → Bool
  | _, _, _, [] => true
  | i, prev, utxo, b :: rest =>
    if b.previous_hash ≠ prev.hash then false
    else if ¬ strStartsWith b.hash (powTarget b.difficulty) then false
    else if b.timestamp < prev.timestamp then false
    else if b.timestamp > now + 7200 then false
    else
      match vcBlockTxs sigOk Htx i b.transactions utxo with
      | none => false
      | some utxo2 => vcChainLoop sigOk Htx now (i + 1) b utxo2 rest

/-- Source `Blockchain.validate_chain`: validates a whole chain from the genesis,
rebuilding the UTXO set from empty. -/
def validate_chain (sigOk : String → String → Option String → Bool)
    (Htx : SignableData → String) (now : ℚ) : List Block → Bool
  | [] => true
  | g :: rest =>
    if g.previous_hash ≠ "0" then false
    else
      match vcBlockTxs sigOk Htx 0 g.transactions [] with
      | none => false
      | some utxo => vcChainLoop sigOk Htx now 1 g utxo rest

/-- Source `Blockchain.rebuild_utxo_set`: apply every transaction of every block to
an initially empty map. -/
def rebuild_utxo_set (chain : List Block) : UtxoSet :=
  chain.foldl (fun u b => b.transactions.foldl (fun u2 tx => apply_transaction tx u2) u) []

-- ── Node sync and reorganization (src/network/node.py) ──

structure NodeState where
  chain : List Block
  utxo_set : UtxoSet
  mempool : List Transaction
deriving DecidableEq, Repr

/-- The fork-point search of `Node._adopt_chain`: first index at which the
two chains' block hashes differ, else the length of the shorter chain. -/
def forkIndex (vieja nueva : List Block) : Nat :=
  match (List.zip vieja nueva).findIdx? (fun p => decide (p.1.hash ≠ p.2.hash)) with
  | some i => i
  | none => min vieja.length nueva.length

/-- Ids of the non-coinbase transactions confirmed in the received chain from
the fork point on (`txs_en_nueva`). -/
def txsEnNueva (nueva : List Block) (fork : Nat) : List String :=
  ((nueva.drop fork).flatMap
    (fun b => b.transactions.filter (fun t => !t.is_coinbase))).map Transaction.id

/-- Transactions of discarded local blocks that are not confirmed in the
received chain and are re-injected into the mempool. -/
def recoveredTxs (vieja : List Block) (fork : Nat) (ids : List String) :
    List Transaction :=
  (vieja.drop fork).flatMap
    (fun b => b.transactions.filter
      (fun t => !t.is_coinbase && !(ids.contains t.id)))

/-- Source `Node._adopt_chain`: genesis-difficulty compatibility, per-block
difficulty floor, full chain validation, then mempool replay of orphaned
transactions and atomic replacement of chain and UTXO set.  Any failed check
leaves the state untouched. -/
def adoptChain (sigOk : String → String → Option String → Bool)
    (Htx : SignableData → String) (now : ℚ)
    (st : NodeState) (nueva : List Block) : NodeState :=
  match st.chain, nueva with
  | lg :: _, g :: nrest =>
    if g.difficulty ≠ lg.difficulty then st
    else if nrest.any (fun b => decide (b.difficulty < g.difficulty)) then st
    else if ¬ validate_chain sigOk Htx now nueva then st
    else
      let fork := forkIndex st.chain nueva
      { chain := nueva
        utxo_set := rebuild_utxo_set nueva
        mempool := st.mempool ++
          recoveredTxs st.chain fork (txsEnNueva nueva fork) }
  | _, _ => st

/-- Source `Node._sync_chain_from` after a successful fetch: adopt the received
chain only when it is strictly longer than the local one. -/
def sync_chain_from (sigOk : String → String → Option String → Bool)
    (Htx : SignableData → String) (now : ℚ)
    (st : NodeState) (received : List Block) : NodeState :=
  if received.length ≤ st.chain.length then st
  else adoptChain sigOk Htx now st received

-- ── Wire deserialization (Transaction.from_dict) ──

structure TxInputWire where
  tx_id : String
  output_index : Nat
  signature : Option String
deriving DecidableEq, Repr

structure TxOutputWire where
  amount : Amount
  recipient_public_key : String
deriving DecidableEq, Repr

structure TxWire where
  id : String
  timestamp : Option ℚ
  inputs : List TxInputWire
  outputs : List TxOutputWire
deriving DecidableEq, Repr

/-- Source `TxInput.from_dict`: a missing or empty (falsy) signature field becomes
`None`. -/
def TxInput.from_dict (w : TxInputWire) : TxInput :=
  { tx_id := w.tx_id, output_index := w.output_index
    signature := match w.signature with
      | none => none
      | some s => if s = "" then none else some s }

/-- Source `TxOutput.from_dict`: the constructor raises on a negative amount. -/
def TxOutput.from_dict (w : TxOutputWire) : Except String TxOutput :=
  if w.amount < 0 then Except.error "Monto negativo no permitido"
  else Except.ok ⟨w.amount, w.recipient_public_key⟩

/-- Source `Transaction.from_dict`: rebuild inputs and outputs, run the constructor
(which computes an id), then overwrite the id with the wire value verbatim. -/
def Transaction.from_dict (Htx : SignableData → String) (now : ℚ)
    (w : TxWire) : Except String Transaction :=
  match w.outputs.mapM TxOutput.from_dict with
  | Except.error e => Except.error e
  | Except.ok outputs =>
    let tx := Transaction.mk' Htx (w.inputs.map TxInput.from_dict) outputs
      w.timestamp now
    Except.ok { tx with id := w.id }

-- ── Concrete instantiations of the hash and signature parameters, and
-- fixture blocks used to evaluate the code's functions on closed inputs ──

def mockHb : HeaderData → String := fun _ => "h"

def mockSig : String → String → Option String → Bool := fun _ _ _ => true

def mockHtx : SignableData → String := fun d => toString d.inputs.length

def genesisTx : Transaction :=
  { inputs := [], outputs := [⟨1000, "genesis"⟩], timestamp := 1700000000
    id := "gtx" }

def g0 : Block :=
  { index := 0, timestamp := 1700000000, transactions := [genesisTx]
    previous_hash := "0", difficulty := 0, nonce := 0, hash := "h" }

def t0 : ℚ := 1700000000

def bc1 : BlockchainState :=
  { chain := [g0], utxo_set := apply_transaction genesisTx []
    tx_index := [("gtx", 0)], difficulty := 0 }

def cbA : Transaction :=
  { inputs := [], outputs := [⟨50, "miner"⟩], timestamp := t0, id := "cbA" }

def cbB : Transaction :=
  { inputs := [], outputs := [⟨7, "intruder"⟩], timestamp := t0, id := "cbB" }

/-- A non-genesis block whose transaction list contains a second zero-input
transaction at position 1. -/
def blockTwoCb : Block :=
  { index := 1, timestamp := t0, transactions := [cbA, cbB]
    previous_hash := "h", difficulty := 0, nonce := 0, hash := "h" }

def cbMulti : Transaction :=
  { inputs := [], outputs := [⟨50, "miner"⟩, ⟨999, "miner"⟩], timestamp := t0
    id := "cbM" }

/-- A non-genesis block whose coinbase carries two outputs. -/
def blockMultiOut : Block :=
  { index := 1, timestamp := t0, transactions := [cbMulti]
    previous_hash := "h", difficulty := 0, nonce := 0, hash := "h" }

/-- A well-formed single-coinbase successor block of `g0`. -/
def blockGood : Block :=
  { index := 1, timestamp := t0, transactions := [cbA]
    previous_hash := "h", difficulty := 0, nonce := 0, hash := "h" }

/-- A block whose stored `index` field is 5 although it sits at chain
position 1. -/
def bWrongIdx : Block :=
  { index := 5, timestamp := t0, transactions := [cbA]
    previous_hash := "h", difficulty := 0, nonce := 0, hash := "zzz" }

/-- A block with a bad previous hash, rejected by `validate_block`. -/
def blockBadPrev : Block :=
  { index := 1, timestamp := t0, transactions := [cbA]
    previous_hash := "nope", difficulty := 0, nonce := 0, hash := "h" }

def txSpend : Transaction :=
  { inputs := [⟨"gtx", 0, some "sig"⟩], outputs := [⟨10, "bob"⟩]
    timestamp := t0, id := "t1" }

def txSpendAlt : Transaction :=
  { inputs := [⟨"gtx", 0, some "othersig"⟩], outputs := [⟨10, "bob"⟩]
    timestamp := t0, id := "t1" }

def utxoAlice : UtxoSet := [(("gtx", 0), ⟨100, "alice"⟩)]

/-- A local block (orphaned after the reorg) carrying one non-coinbase
transaction. -/
def bLocal : Block :=
  { index := 1, timestamp := t0, transactions := [txSpend]
    previous_hash := "h", difficulty := 0, nonce := 0, hash := "localhash" }

/-- The competing received block at position 1. -/
def bNew : Block :=
  { index := 1, timestamp := t0, transactions := [cbA]
    previous_hash := "h", difficulty := 0, nonce := 0, hash := "newhash" }

def st5 : NodeState :=
  { chain := [g0, bLocal], utxo_set := [], mempool := [] }

def nueva5 : List Block := [g0, bNew]

def st6 : NodeState :=
  { chain := [g0], utxo_set := [(("gtx", 0), ⟨1000, "genesis"⟩)]
    mempool := [txSpend] }

def mkB (t : ℚ) : Block := { defaultBlock with timestamp := t }

/-- Ten blocks spanning 600 seconds. -/
def chain600 : List Block := mkB 0 :: List.replicate 8 (mkB 0) ++ [mkB 600]

/-- Ten blocks spanning 75 seconds. -/
def chain75 : List Block := mkB 0 :: List.replicate 8 (mkB 0) ++ [mkB 75]

def wireC10 : TxWire :=
  { id := "forged", timestamp := some 1, inputs := []
    outputs := [⟨5, "x"⟩] }

def txC10 : Transaction :=
  { inputs := [], outputs := [⟨5, "x"⟩], timestamp := 1, id := "forged" }

-- ═══════════════════════════ Theorems ═══════════════════════════

/-- C10: `Transaction.from_dict` stores the wire `id` field verbatim and
never recomputes it from the transaction's contents: whenever
deserialization succeeds, the resulting transaction's id equals the wire
dict's id — for every hash function, hence also when the wire id differs
from the recomputed digest of the signable view. -/
theorem from_dict_keeps_wire_id (Htx : SignableData → String) (now : ℚ)
    (w : TxWire) (tx : Transaction)
    (h : Transaction.from_dict Htx now w = Except.ok tx) :
    tx.id = w.id := by
  unfold Transaction.from_dict at h
  rcases hm : w.outputs.mapM TxOutput.from_dict with e | outs <;> rw [hm] at h
  · cases h
  · injection h with h
    rw [← h]

/-- Witness for C10: a concrete wire dict whose `id` is not the digest the
constructor would compute, yet is stored verbatim. -/
theorem from_dict_keeps_wire_id_witness :
    Transaction.from_dict mockHtx 0 wireC10 = Except.ok txC10 ∧
    txC10.id = wireC10.id := by
  have h : Transaction.from_dict mockHtx 0 wireC10 = Except.ok txC10 := rfl
  exact ⟨h, from_dict_keeps_wire_id mockHtx 0 wireC10 txC10 h⟩

/-- C9: when `Blockchain.add_block` rejects a block (returns `False`), the
blockchain state — chain, UTXO set, transaction index and difficulty — is
returned entirely unchanged: validation only works on a snapshot and
`add_block` mutates nothing before validation succeeds. -/
theorem add_block_rejected_frame (Hb : HeaderData → String)
    (sigOk : String → String → Option String → Bool)
    (Htx : SignableData → String) (now : ℚ)
    (bc : BlockchainState) (b : Block)
    (h : (add_block Hb sigOk Htx now bc b).1 = false) :
    (add_block Hb sigOk Htx now bc b).2 = bc := by
  unfold add_block at h ⊢
  by_cases hv : validate_block Hb sigOk Htx now bc b = true
  · simp [hv] at h
  · simp [hv]

/-- Witness for C9: a block with a wrong previous hash is rejected and the
state is unchanged. -/
theorem add_block_rejected_frame_witness :
    (add_block mockHb mockSig mockHtx t0 bc1 blockBadPrev).1 = false ∧
    (add_block mockHb mockSig mockHtx t0 bc1 blockBadPrev).2 = bc1 := by
  have hv : validate_block mockHb mockSig mockHtx t0 bc1 blockBadPrev = false := by
    norm_num [validate_block, bc1, g0, blockBadPrev]
    simp
  have h : (add_block mockHb mockSig mockHtx t0 bc1 blockBadPrev).1 = false := by
    simp [add_block, hv]
  exact ⟨h, add_block_rejected_frame mockHb mockSig mockHtx t0 bc1 blockBadPrev h⟩

/-- C6: when chain sync receives a chain whose length is at most the local
chain's length, the node state (chain, UTXO set and mempool) is returned
unchanged; only a strictly longer chain reaches adoption, so ties favor the
incumbent. -/
theorem sync_shorter_is_noop (sigOk : String → String → Option String → Bool)
    (Htx : SignableData → String) (now : ℚ)
    (st : NodeState) (received : List Block)
    (h : received.length ≤ st.chain.length) :
    sync_chain_from sigOk Htx now st received = st := by
  unfold sync_chain_from
  simp [h]

/-- Witness for C6: an equal-length received chain leaves the concrete node
state untouched. -/
theorem sync_shorter_is_noop_witness :
    [g0].length ≤ st6.chain.length ∧
    sync_chain_from mockSig mockHtx t0 st6 [g0] = st6 := by
  have h : [g0].length ≤ st6.chain.length := by
    simp [st6]
  exact ⟨h, sync_shorter_is_noop mockSig mockHtx t0 st6 [g0] h⟩

/-- C8: the transaction id computed by `calculate_id` depends only on the
inputs' (tx_id, output_index) pairs, the outputs' (amount, recipient) pairs
and the timestamp; in particular rewriting every input's signature
arbitrarily (mutating, setting or removing it) leaves the id unchanged. -/
theorem calculate_id_ignores_signatures :
    (∀ (Htx : SignableData → String) (t1 t2 : Transaction),
      t1.inputs.map (fun i => (i.tx_id, i.output_index)) =
        t2.inputs.map (fun i => (i.tx_id, i.output_index)) →
      t1.outputs.map (fun o => (o.amount, o.recipient_public_key)) =
        t2.outputs.map (fun o => (o.amount, o.recipient_public_key)) →
      t1.timestamp = t2.timestamp →
      calculate_id Htx t1.inputs t1.outputs t1.timestamp =
        calculate_id Htx t2.inputs t2.outputs t2.timestamp)
    ∧ ∀ (Htx : SignableData → String) (tx : Transaction)
        (f : TxInput → Option String),
      calculate_id Htx (tx.inputs.map fun i => { i with signature := f i })
        tx.outputs tx.timestamp =
        calculate_id Htx tx.inputs tx.outputs tx.timestamp := by
  constructor
  · intro Htx t1 t2 h1 h2 h3
    unfold calculate_id signable_data
    refine congrArg Htx ?_
    simp only [SignableData.mk.injEq]
    refine ⟨?_, ?_, h3⟩
    · calc t1.inputs.map (fun i => SignableInput.mk i.tx_id i.output_index)
          = (t1.inputs.map (fun i => (i.tx_id, i.output_index))).map
              (fun p => SignableInput.mk p.1 p.2) := by
            rw [List.map_map]; rfl
        _ = (t2.inputs.map (fun i => (i.tx_id, i.output_index))).map
              (fun p => SignableInput.mk p.1 p.2) := by rw [h1]
        _ = t2.inputs.map (fun i => SignableInput.mk i.tx_id i.output_index) := by
            rw [List.map_map]; rfl
    · calc t1.outputs.map (fun o => SignableOutput.mk o.amount o.recipient_public_key)
          = (t1.outputs.map (fun o => (o.amount, o.recipient_public_key))).map
              (fun p => SignableOutput.mk p.1 p.2) := by
            rw [List.map_map]; rfl
        _ = (t2.outputs.map (fun o => (o.amount, o.recipient_public_key))).map
              (fun p => SignableOutput.mk p.1 p.2) := by rw [h2]
        _ = t2.outputs.map (fun o => SignableOutput.mk o.amount o.recipient_public_key) := by
            rw [List.map_map]; rfl
  · intro Htx tx f
    unfold calculate_id signable_data
    refine congrArg Htx ?_
    congr 1
    rw [List.map_map]; rfl

/-- Witness for C8: two concrete transactions that differ only in an input
signature get the same id. -/
theorem calculate_id_ignores_signatures_witness :
    calculate_id mockHtx txSpend.inputs txSpend.outputs txSpend.timestamp =
      calculate_id mockHtx txSpendAlt.inputs txSpendAlt.outputs txSpendAlt.timestamp :=
  calculate_id_ignores_signatures.1 mockHtx txSpend txSpendAlt rfl rfl rfl

/-- Helper: when every input resolves to a non-negative output whose
signature check passes, the input loop of `Transaction.verify` succeeds and
returns the sum of the resolved amounts. -/
theorem verifyInputs_ok_of_resolved
    (sigOk : String → String → Option String → Bool) (digest : String)
    (utxo : UtxoSet) (inputs : List TxInput)
    (h : ∀ inp ∈ inputs, ∃ o,
      utxoLookup utxo (inp.tx_id, inp.output_index) = some o ∧
      0 ≤ o.amount ∧ sigOk o.recipient_public_key digest inp.signature = true) :
    verifyInputs sigOk digest utxo inputs = Except.ok (inputSum utxo inputs) := by
  induction inputs with
  | nil => simp [verifyInputs, inputSum]
  | cons inp rest ih =>
    obtain ⟨o, ho, hamt, hsig⟩ := h inp (by simp)
    have hrest := ih (fun i hi => h i (by simp [hi]))
    simp [verifyInputs, ho, not_lt.mpr hamt, hsig, hrest, inputSum]

/-- C3: `Transaction.verify` returns `(True, 0)` on every coinbase without
consulting the signature oracle, and on every non-coinbase transaction whose
inputs all resolve to non-negative outputs with valid signatures over the
transaction's signing digest, with non-negative output sum not exceeding the
input sum, it returns `(True, input_sum - output_sum)`. -/
theorem verify_spec :
    (∀ (sigOk : String → String → Option String → Bool)
       (Htx : SignableData → String) (tx : Transaction) (utxo : UtxoSet),
      tx.is_coinbase = true → tx.verify sigOk Htx utxo = Except.ok (true, 0))
    ∧ ∀ (sigOk : String → String → Option String → Bool)
        (Htx : SignableData → String) (tx : Transaction) (utxo : UtxoSet),
      tx.is_coinbase = false →
      (∀ inp ∈ tx.inputs, ∃ o,
        utxoLookup utxo (inp.tx_id, inp.output_index) = some o ∧
        0 ≤ o.amount ∧
        sigOk o.recipient_public_key (tx.hash_for_signature Htx) inp.signature = true) →
      0 ≤ (tx.outputs.map TxOutput.amount).sum →
      (tx.outputs.map TxOutput.amount).sum ≤ inputSum utxo tx.inputs →
      tx.verify sigOk Htx utxo =
        Except.ok (true, inputSum utxo tx.inputs - (tx.outputs.map TxOutput.amount).sum) := by
  constructor
  · intro sigOk Htx tx utxo h
    simp [Transaction.verify, h]
  · intro sigOk Htx tx utxo hcb hres hout hle
    unfold Transaction.verify
    rw [hcb]
    simp only [Bool.false_eq_true, if_false]
    rw [if_neg (not_lt.mpr hout), verifyInputs_ok_of_resolved sigOk _ utxo tx.inputs hres]
    dsimp only
    rw [if_neg (not_lt.mpr hle)]

/-- Witness for C3: a concrete single-input payment verifies with fee 90. -/
theorem verify_spec_witness :
    txSpend.verify mockSig mockHtx utxoAlice = Except.ok (true, 90) := by
  have h := verify_spec.2 mockSig mockHtx txSpend utxoAlice rfl
    (by
      intro inp hinp
      refine ⟨⟨100, "alice"⟩, ?_, by norm_num, rfl⟩
      simp [txSpend] at hinp
      subst hinp
      rfl)
    (by norm_num [txSpend])
    (by norm_num [txSpend, inputSum, utxoLookup, utxoAlice])
  rw [h]
  norm_num [txSpend, inputSum, utxoLookup, utxoAlice]

/-- Helper: the two sequential clamping conditionals of
`calculate_next_difficulty` compute the interval clamp. -/
theorem seqClamp_eq_clampQ (lo hi x : ℚ) (hlohi : lo ≤ hi) :
    (if (if x < lo then lo else x) > hi then hi else if x < lo then lo else x) =
      clampQ lo hi x := by
  unfold clampQ
  rcases lt_or_le x lo with h1 | h1
  · rw [if_pos h1, if_neg (not_lt.mpr hlohi), min_eq_right (le_trans h1.le hlohi),
      max_eq_left h1.le]
  · rw [if_neg (not_lt.mpr h1)]
    rcases lt_or_le hi x with h2 | h2
    · rw [if_pos h2, min_eq_left h2.le, max_eq_right hlohi]
    · rw [if_neg (not_lt.mpr h2), min_eq_right h2, max_eq_right h1]

/-- C7: `calculate_next_difficulty` keeps the difficulty unless the chain
length is a positive multiple of `DIFFICULTY_INTERVAL`; in that case it
returns `max 1 (round(current * target / actual))` with `actual` the last
interval's timestamp span clamped to `[target/2, target*2]`; concretely,
at difficulty 2 a 600-second span retargets to 1 and a 75-second span
(clamped to 150) retargets to 4. -/
theorem calculate_next_difficulty_spec :
    (∀ (chain : List Block) (d : ℤ),
      ¬(0 < chain.length ∧ chain.length % DIFFICULTY_INTERVAL = 0) →
      calculate_next_difficulty chain d = d)
    ∧ (∀ (chain : List Block) (d : ℤ),
      0 < chain.length → chain.length % DIFFICULTY_INTERVAL = 0 →
      calculate_next_difficulty chain d =
        max 1 (pyRound ((d : ℚ) * (TARGET_BLOCK_TIME * (DIFFICULTY_INTERVAL : ℚ)) /
          clampQ (TARGET_BLOCK_TIME * (DIFFICULTY_INTERVAL : ℚ) / 2)
            (TARGET_BLOCK_TIME * (DIFFICULTY_INTERVAL : ℚ) * 2)
            ((chain.getLastD defaultBlock).timestamp -
              (chain.getD (chain.length - DIFFICULTY_INTERVAL) defaultBlock).timestamp))))
    ∧ calculate_next_difficulty chain600 2 = 1
    ∧ calculate_next_difficulty chain75 2 = 4 := by
  refine ⟨?_, ?_, ?_, ?_⟩
  · intro chain d h
    unfold calculate_next_difficulty
    rw [if_pos]
    by_cases hm : chain.length % DIFFICULTY_INTERVAL = 0
    · left
      rcases Nat.eq_zero_or_pos chain.length with h0 | hp
      · rw [h0]; norm_num [DIFFICULTY_INTERVAL]
      · exact absurd ⟨hp, hm⟩ h
    · right; exact hm
  · intro chain d hp hm
    have hge : DIFFICULTY_INTERVAL ≤ chain.length :=
      Nat.le_of_dvd hp (Nat.dvd_of_mod_eq_zero hm)
    unfold calculate_next_difficulty
    rw [if_neg (by push_neg; exact ⟨hge, hm⟩)]
    dsimp only
    rw [seqClamp_eq_clampQ _ _ _ (by norm_num [TARGET_BLOCK_TIME, DIFFICULTY_INTERVAL])]
  · norm_num [calculate_next_difficulty, chain600, DIFFICULTY_INTERVAL,
      TARGET_BLOCK_TIME, pyRound, ratFloor, mkB, defaultBlock, List.replicate,
      List.getD, List.getLastD]
  · norm_num [calculate_next_difficulty, chain75, DIFFICULTY_INTERVAL,
      TARGET_BLOCK_TIME, pyRound, ratFloor, mkB, defaultBlock, List.replicate,
      List.getD, List.getLastD]

/-- Witness for C7: a chain of length 1 (not a positive multiple of 10)
keeps the current difficulty. -/
theorem calculate_next_difficulty_spec_witness :
    calculate_next_difficulty [defaultBlock] 2 = 2 :=
  calculate_next_difficulty_spec.1 [defaultBlock] 2 (by decide)

/-- C1: `Blockchain.validate_block` does NOT reject a second zero-input
transaction at a position other than 0: the concrete block `blockTwoCb`
carries the coinbase `cbA` at position 0 and the zero-input `cbB` at
position 1, is accepted by `validate_block` and committed by `add_block`,
while `validate_chain` — which does enforce the at-most-one-coinbase rule —
rejects the very same block.  The transaction loop of `validate_block`
treats `cbB` through `Transaction.verify`, which returns `(True, 0)` for any
coinbase. -/
theorem validate_block_accepts_second_coinbase :
    blockTwoCb.transactions = [cbA, cbB] ∧
    cbB.is_coinbase = true ∧
    validate_block mockHb mockSig mockHtx t0 bc1 blockTwoCb = true ∧
    (add_block mockHb mockSig mockHtx t0 bc1 blockTwoCb).1 = true ∧
    validate_chain mockSig mockHtx t0 [g0, blockTwoCb] = false := by
  have hv : validate_block mockHb mockSig mockHtx t0 bc1 blockTwoCb = true := by
    norm_num [validate_block, bc1, blockTwoCb, g0, cbA, cbB, mockHb, mockSig,
      mockHtx, Block.calculate_hash, Block.headerData, powTarget, strStartsWith,
      charsStartWith, defaultBlock, vbTxLoop, Transaction.verify,
      Transaction.is_coinbase, cbFirstAmount, get_mining_reward,
      INITIAL_REWARD, HALVING_INTERVAL, apply_transaction, genesisTx, t0]
  refine ⟨rfl, rfl, hv, by simp [add_block, hv], ?_⟩
  norm_num [validate_chain, vcChainLoop, vcBlockTxs, vcTxLoop, g0, blockTwoCb,
    cbA, cbB, genesisTx, Transaction.is_coinbase, apply_transaction, powTarget,
    strStartsWith, charsStartWith, t0, Transaction.verify, cbFirstAmount,
    get_mining_reward, INITIAL_REWARD, HALVING_INTERVAL]

/-- C2 counterexample: `validate_block` accepts a non-genesis block whose
coinbase has two outputs — the claimed "exactly one output on coinbase"
check does not exist; only `outputs[0].amount` is compared against
`reward + fees`. -/
theorem validate_block_accepts_multi_output_coinbase :
    blockMultiOut.transactions = [cbMulti] ∧
    cbMulti.outputs.length = 2 ∧
    validate_block mockHb mockSig mockHtx t0 bc1 blockMultiOut = true := by
  refine ⟨rfl, rfl, ?_⟩
  norm_num [validate_block, bc1, blockMultiOut, g0, cbMulti, mockHb, mockSig,
    mockHtx, Block.calculate_hash, Block.headerData, powTarget, strStartsWith,
    charsStartWith, defaultBlock, vbTxLoop, Transaction.verify,
    Transaction.is_coinbase, cbFirstAmount, get_mining_reward,
    INITIAL_REWARD, HALVING_INTERVAL, apply_transaction, genesisTx, t0]

/-- C2 amended: a non-genesis block accepted by `validate_block` has a
coinbase at position 0 whose FIRST output amount (0 when it has no outputs)
equals `reward(chain length) + fees` of the remaining transactions; the
number of coinbase outputs is not constrained. -/
theorem validate_block_coinbase_amount (Hb : HeaderData → String)
    (sigOk : String → String → Option String → Bool)
    (Htx : SignableData → String) (now : ℚ)
    (bc : BlockchainState) (b : Block)
    (h : validate_block Hb sigOk Htx now bc b = true) :
    ∃ coinbase rest fees utxo2,
      b.transactions = coinbase :: rest ∧
      coinbase.is_coinbase = true ∧
      vbTxLoop sigOk Htx rest bc.utxo_set 0 = some (fees, utxo2) ∧
      cbFirstAmount coinbase = get_mining_reward bc.chain.length + fees := by
  unfold validate_block at h
  rcases hlast : bc.chain.getLast? with _ | latest <;> rw [hlast] at h
  · exact Bool.noConfusion h
  · dsimp only at h
    split_ifs at h with h1 h2 h3 h4 h5 h6
    rcases htx : b.transactions with _ | ⟨coinbase, rest⟩ <;> rw [htx] at h <;>
      dsimp only at h
    · exact Bool.noConfusion h
    · split_ifs at h with hcb
      rcases hloop : vbTxLoop sigOk Htx rest bc.utxo_set 0 with _ | ⟨fees, u2⟩ <;>
        rw [hloop] at h
      · exact Bool.noConfusion h
      · exact ⟨coinbase, rest, fees, u2, rfl, hcb, hloop, of_decide_eq_true h⟩

/-- Witness for the amended C2 at a concrete accepted block. -/
theorem validate_block_coinbase_amount_witness :
    validate_block mockHb mockSig mockHtx t0 bc1 blockGood = true ∧
    ∃ coinbase rest fees utxo2,
      blockGood.transactions = coinbase :: rest ∧
      coinbase.is_coinbase = true ∧
      vbTxLoop mockSig mockHtx rest bc1.utxo_set 0 = some (fees, utxo2) ∧
      cbFirstAmount coinbase = get_mining_reward bc1.chain.length + fees := by
  have hv : validate_block mockHb mockSig mockHtx t0 bc1 blockGood = true := by
    norm_num [validate_block, bc1, blockGood, g0, cbA, mockHb, mockSig,
      mockHtx, Block.calculate_hash, Block.headerData, powTarget, strStartsWith,
      charsStartWith, defaultBlock, vbTxLoop, Transaction.verify,
      Transaction.is_coinbase, cbFirstAmount, get_mining_reward,
      INITIAL_REWARD, HALVING_INTERVAL, apply_transaction, genesisTx, t0]
  exact ⟨hv, validate_block_coinbase_amount mockHb mockSig mockHtx t0 bc1
    blockGood hv⟩

/-- C4 counterexample: `validate_chain` accepts a chain whose block at
position 1 carries stored index 5 — the pairwise `chain[i].index == i` check
claimed by the specification is absent from the code. -/
theorem validate_chain_accepts_wrong_index :
    validate_chain mockSig mockHtx t0 [g0, bWrongIdx] = true ∧
    ([g0, bWrongIdx].getD 1 defaultBlock).index = 5 := by
  constructor
  · norm_num [validate_chain, vcChainLoop, vcBlockTxs, vcTxLoop, g0, bWrongIdx,
      cbA, genesisTx, Transaction.is_coinbase, apply_transaction, powTarget,
      strStartsWith, charsStartWith, t0, Transaction.verify, cbFirstAmount,
      get_mining_reward, INITIAL_REWARD, HALVING_INTERVAL]
  · rfl

/-- Helper: a chain suffix accepted by the `validate_chain` loop is pairwise
linked by previous hash and has non-decreasing timestamps. -/
theorem vcChainLoop_chain (sigOk : String → String → Option String → Bool)
    (Htx : SignableData → String) (now : ℚ) (i : Nat) (prev : Block)
    (utxo : UtxoSet) (rest : List Block)
    (h : vcChainLoop sigOk Htx now i prev utxo rest = true) :
    List.Chain' (fun a b => b.previous_hash = a.hash ∧ a.timestamp ≤ b.timestamp)
      (prev :: rest) := by
  induction rest generalizing i prev utxo with
  | nil => simp
  | cons b rest2 ih =>
    unfold vcChainLoop at h
    split_ifs at h with h1 h2 h3 h4
    rcases hb : vcBlockTxs sigOk Htx i b.transactions utxo with _ | utxo2 <;>
      rw [hb] at h
    · exact Bool.noConfusion h
    · exact List.chain'_cons.mpr ⟨⟨not_not.mp h1, not_lt.mp h3⟩,
        ih (i + 1) b utxo2 h⟩

/-- C4 amended: `validate_chain` accepts a chain only if for every i > 0 the
block's `previous_hash` equals the previous block's `hash` and its timestamp
is no less than the previous block's; it performs no check relating the
stored `index` field to the position i. -/
theorem validate_chain_pairwise (sigOk : String → String → Option String → Bool)
    (Htx : SignableData → String) (now : ℚ) (chain : List Block)
    (h : validate_chain sigOk Htx now chain = true) :
    ∀ (i : ℕ) (hi : i + 1 < chain.length),
      (chain.get ⟨i + 1, hi⟩).previous_hash =
        (chain.get ⟨i, Nat.lt_of_succ_lt hi⟩).hash ∧
      (chain.get ⟨i, Nat.lt_of_succ_lt hi⟩).timestamp ≤
        (chain.get ⟨i + 1, hi⟩).timestamp := by
  rcases chain with _ | ⟨g, rest⟩
  · intro i hi
    simp at hi
  · unfold validate_chain at h
    dsimp only at h
    split_ifs at h with h1
    rcases hb : vcBlockTxs sigOk Htx 0 g.transactions [] with _ | utxo <;>
      rw [hb] at h
    · exact Bool.noConfusion h
    · have hc := vcChainLoop_chain sigOk Htx now 1 g utxo rest h
      have hg := List.chain'_iff_get.mp hc
      intro i hi
      exact hg i (by simpa using hi)

/-- Witness for the amended C4 at a concrete accepted chain. -/
theorem validate_chain_pairwise_witness :
    bWrongIdx.previous_hash = g0.hash ∧ g0.timestamp ≤ bWrongIdx.timestamp := by
  have hv : validate_chain mockSig mockHtx t0 [g0, bWrongIdx] = true := by
    norm_num [validate_chain, vcChainLoop, vcBlockTxs, vcTxLoop, g0, bWrongIdx,
      cbA, genesisTx, Transaction.is_coinbase, apply_transaction, powTarget,
      strStartsWith, charsStartWith, t0, Transaction.verify, cbFirstAmount,
      get_mining_reward, INITIAL_REWARD, HALVING_INTERVAL]
  exact validate_chain_pairwise mockSig mockHtx t0 [g0, bWrongIdx] hv 0
    (by norm_num)

/-- C5: when `_adopt_chain` adopts a received chain (all guards pass), every
non-coinbase transaction of a discarded local block at position at least
`fork_index` whose id does not appear in any received block from
`fork_index` on ends up in the resulting mempool. -/
theorem adopt_replays_orphaned_txs (sigOk : String → String → Option String → Bool)
    (Htx : SignableData → String) (now : ℚ) (st : NodeState) (nueva : List Block)
    (lg g : Block) (lrest nrest : List Block)
    (hl : st.chain = lg :: lrest) (hn : nueva = g :: nrest)
    (hgd : g.difficulty = lg.difficulty)
    (hdiff : ∀ b ∈ nrest, ¬ b.difficulty < g.difficulty)
    (hvc : validate_chain sigOk Htx now nueva = true)
    (tx : Transaction) (b : Block)
    (hb : b ∈ st.chain.drop (forkIndex st.chain nueva))
    (htx : tx ∈ b.transactions)
    (hcb : tx.is_coinbase = false)
    (hid : ∀ b2 ∈ nueva.drop (forkIndex st.chain nueva),
      ∀ t2 ∈ b2.transactions, t2.id ≠ tx.id) :
    tx ∈ (adoptChain sigOk Htx now st nueva).mempool := by
  have hstep : adoptChain sigOk Htx now st nueva =
      { chain := nueva
        utxo_set := rebuild_utxo_set nueva
        mempool := st.mempool ++
          recoveredTxs st.chain (forkIndex st.chain nueva)
            (txsEnNueva nueva (forkIndex st.chain nueva)) } := by
    unfold adoptChain
    rw [hn] at hvc
    rw [hl, hn]
    dsimp only
    rw [if_neg (not_not_intro hgd), if_neg ?_, if_neg (not_not_intro hvc)]
    simp only [List.any_eq_true, not_exists, not_and, decide_eq_true_eq]
    intro b2 hb2
    exact hdiff b2 hb2
  rw [hstep]
  have hmem : tx.id ∉ txsEnNueva nueva (forkIndex st.chain nueva) := by
    intro hm
    unfold txsEnNueva at hm
    obtain ⟨t2, ht2, hteq⟩ := List.mem_map.mp hm
    obtain ⟨b2, hb2, ht2b⟩ := List.mem_flatMap.mp ht2
    exact hid b2 hb2 t2 (List.mem_filter.mp ht2b).1 hteq
  refine List.mem_append.mpr (Or.inr ?_)
  unfold recoveredTxs
  refine List.mem_flatMap.mpr ⟨b, hb, ?_⟩
  refine List.mem_filter.mpr ⟨htx, ?_⟩
  simp [hcb, hmem]

/-- Witness for C5: after adopting `nueva5` over the local chain
`[g0, bLocal]`, the orphaned payment `txSpend` is back in the mempool. -/
theorem adopt_replays_orphaned_txs_witness :
    txSpend ∈ (adoptChain mockSig mockHtx t0 st5 nueva5).mempool := by
  have hvc : validate_chain mockSig mockHtx t0 nueva5 = true := by
    norm_num [validate_chain, vcChainLoop, vcBlockTxs, vcTxLoop, nueva5, g0, bNew,
      cbA, genesisTx, Transaction.is_coinbase, apply_transaction, powTarget,
      strStartsWith, charsStartWith, t0, Transaction.verify, cbFirstAmount,
      get_mining_reward, INITIAL_REWARD, HALVING_INTERVAL]
  refine adopt_replays_orphaned_txs mockSig mockHtx t0 st5 nueva5 g0 g0
    [bLocal] [bNew] rfl rfl rfl ?_ hvc txSpend bLocal ?_ ?_ rfl ?_
  · decide
  · decide
  · decide
  · decide

end MiBlockchain
